import Mathlib

/-!
Verification of the claude-code-slack-bot core against its specification.

The TypeScript source is shallowly embedded:
* `src/claude/permissions.ts` (`PermissionGate`) — the safe-tool classifier,
  the async approval rendezvous of `request`, and `resolve`.
* `src/slack/message-processor.ts` (`MessageProcessor`) — `sessionKey` and
  the `process` turn loop, modelled as a pure function from the incoming
  event, the database states and the stream's message list to the ordered
  trace of Slack effects plus the resulting database.
* `src/db/sessions.ts` / `src/db/working-dirs.ts` — the SQLite tables are
  modelled as association lists with the unique-key discipline the schema
  enforces.
* `src/slack/formatter.ts` — `toSlackMarkdown`, `truncate` and
  `formatToolDescription`, embedded as executable string functions.

JavaScript's single-threaded event loop serialises the callbacks that can
settle one pending approval (`postPermissionRequest`'s `.then`, its
`.catch`, and out-of-band `PermissionGate.resolve` calls); a run of the
rendezvous is therefore modelled as the list of these settlement events in
the order the event loop executes them.
-/

namespace SlackBot

/-! ## Permission gate (src/claude/permissions.ts) -/

/-- Tools that never need explicit user approval (`SAFE_TOOLS`). -/
def SAFE_TOOLS : List String :=
  ["Read", "Glob", "Grep", "LS", "WebSearch", "WebFetch", "TodoWrite", "TodoRead"]

/-- JavaScript's `String.prototype.startsWith`, modelled as a prefix test
on the character lists of the two strings. -/
def strStartsWith (s pre : String) : Bool :=
  pre.data.isPrefixOf s.data

/-- `PermissionGate.isSafe`: `SAFE_TOOLS.some((safe) => tool === safe || tool.startsWith('mcp__'))`.
The prefix test sits inside the `some` callback exactly as in the source. -/
def isSafe (tool : String) : Bool :=
  SAFE_TOOLS.any (fun safe => tool == safe || strStartsWith tool "mcp__")

/-- `PermissionResult` from src/utils/types.ts:
`{ behavior: 'allow' } | { behavior: 'deny'; message: string }`. -/
inductive PermissionResult where
  | allow : PermissionResult
  | deny (message : String) : PermissionResult
  deriving DecidableEq, Repr

/-- The deny message built by `PermissionGate.request`:
`` `Tool "${tool}" was denied by user.` ``. -/
def denyMessage (tool : String) : String :=
  "Tool \"" ++ tool ++ "\" was denied by user."

/-- One event-loop callback that can settle a pending approval:
the `.then(directResult => ...)` continuation of `postPermissionRequest`
(inline resolution), its `.catch(() => this.resolve(approvalId, false))`,
or an out-of-band `resolve(approvalId, b)` call from the action handler. -/
inductive ApprovalEvent where
  | announceReturn (b : Bool) : ApprovalEvent
  | announceThrow : ApprovalEvent
  | externalResolve (b : Bool) : ApprovalEvent
  deriving DecidableEq, Repr

/-- State of one approval: whether its continuation is still in `pending`,
and the boolean the promise was resolved with, if any. -/
structure ApprovalState where
  pending : Bool
  decision : Option Bool
  deriving DecidableEq, Repr

/-- Executing one settlement callback against the approval's state.
The second component records whether this callback threw
(`resolve` throws on a non-pending id; the inline `.then` path checks
`pending.has` first and is silently skipped once settled). -/
def stepApproval (s : ApprovalState) (e : ApprovalEvent) : ApprovalState × Bool :=
  match e with
  | .announceReturn b => if s.pending then (⟨false, some b⟩, false) else (s, false)
  | .announceThrow => if s.pending then (⟨false, some false⟩, false) else (s, true)
  | .externalResolve b => if s.pending then (⟨false, some b⟩, false) else (s, true)

/-- Run a list of settlement callbacks from the freshly-registered state
(`pending.set(approvalId, resolve)` has just run). -/
def runApproval (events : List ApprovalEvent) : ApprovalState :=
  events.foldl (fun s e => (stepApproval s e).1) ⟨true, none⟩

/-- The boolean a settlement event carries: the `.catch` path settles
with `false`, the other two with their payload. -/
def settleValue : ApprovalEvent → Bool
  | .announceReturn b => b
  | .announceThrow => false
  | .externalResolve b => b

/-- Outcome of `PermissionGate.request tool` under a given run of
settlement callbacks: safe tools return allow without registering
anything; otherwise the awaited promise yields the decision the first
settlement resolved it with (`none` = the approval never settled and the
promise is still pending). -/
def requestOutcome (tool : String) (events : List ApprovalEvent) :
    Option PermissionResult :=
  if isSafe tool then some .allow
  else
    match (runApproval events).decision with
    | some true => some .allow
    | some false => some (.deny (denyMessage tool))
    | none => none

/-- The `pending` map of a `PermissionGate`, over all approval ids, paired
with the decisions already settled. `resolve` is the only mutation path
modelled here; the inline `.then` path calls the same `resolve` after its
`pending.has` check. -/
structure GateMap where
  pending : List String
  settled : List (String × Bool)
  deriving DecidableEq, Repr

/-- The message of the error `resolve` throws on a non-pending id. -/
def brokenMessage (id : String) : String :=
  "No pending approval for id: " ++ id

/-- `PermissionGate.resolve(approvalId, approved)`: look the id up in
`pending`; throw if absent; otherwise run the continuation (recording the
decision) and delete the entry. -/
def resolveCall (g : GateMap) (id : String) (approved : Bool) :
    Except String GateMap :=
  if g.pending.contains id then
    .ok ⟨g.pending.erase id, (id, approved) :: g.settled⟩
  else
    .error (brokenMessage id)

/-! ## Conversation keys (src/slack/message-processor.ts) -/

/-- `MessageProcessor.sessionKey`:
`` `${userId}-${channelId}-${threadTs ?? 'direct'}` ``. -/
def sessionKey (userId channelId : String) (threadTs : Option String) : String :=
  userId ++ "-" ++ channelId ++ "-" ++ (threadTs.getD "direct")

/-- `MessageProcessor.isDM`: `channelId.startsWith('D')`. -/
def isDM (channelId : String) : Bool :=
  strStartsWith channelId "D"

/-! ## Session store (src/db/sessions.ts)

The `sessions` SQLite table is modelled as a list of rows; the schema's
unique `session_key` shows up as a `Nodup`-style hypothesis where needed.
Timestamps (`Date.now()`) are modelled as `Nat` milliseconds passed in
explicitly. -/

/-- One row of the `sessions` table (`Session` in src/utils/types.ts). -/
structure Session where
  sessionKey : String
  claudeSessionId : Option String
  userId : String
  channelId : String
  threadTs : Option String
  workingDirectory : Option String
  isActive : Bool
  lastActivityAt : Nat
  createdAt : Nat
  deriving DecidableEq, Repr

/-- `SessionRepository.upsert` takes `Omit<Session, 'createdAt'>`. -/
structure SessionUpsert where
  sessionKey : String
  claudeSessionId : Option String
  userId : String
  channelId : String
  threadTs : Option String
  workingDirectory : Option String
  isActive : Bool
  lastActivityAt : Nat
  deriving DecidableEq, Repr

/-- `SessionRepository.find`: `SELECT * FROM sessions WHERE session_key = ?`. -/
def findSession (db : List Session) (key : String) : Option Session :=
  db.find? (fun r => r.sessionKey == key)

/-- `SessionRepository.upsert`: `INSERT ... ON CONFLICT(session_key) DO
UPDATE SET claude_session_id, working_directory, is_active,
last_activity_at` — on conflict only those four columns change;
`user_id`, `channel_id`, `thread_ts` and `created_at` keep their stored
values. A fresh insert stamps `created_at` with `Date.now()` (`now`). -/
def upsertSession (db : List Session) (s : SessionUpsert) (now : Nat) :
    List Session :=
  if db.any (fun r => r.sessionKey == s.sessionKey) then
    db.map (fun r =>
      if r.sessionKey == s.sessionKey then
        { r with claudeSessionId := s.claudeSessionId,
                 workingDirectory := s.workingDirectory,
                 isActive := s.isActive,
                 lastActivityAt := s.lastActivityAt }
      else r)
  else
    db ++ [⟨s.sessionKey, s.claudeSessionId, s.userId, s.channelId,
      s.threadTs, s.workingDirectory, s.isActive, s.lastActivityAt, now⟩]

/-- `SessionRepository.updateClaudeSessionId`: `UPDATE sessions SET
claude_session_id = ?, last_activity_at = ? WHERE session_key = ?`. -/
def updateClaudeSessionId (db : List Session) (key sid : String) (now : Nat) :
    List Session :=
  db.map (fun r =>
    if r.sessionKey == key then
      { r with claudeSessionId := some sid, lastActivityAt := now }
    else r)

/-! ## Working directories (src/db/working-dirs.ts) -/

/-- One row of the `working_directories` table. -/
structure WorkingDirectory where
  dirKey : String
  channelId : String
  threadTs : Option String
  userId : Option String
  directory : String
  setAt : Nat
  deriving DecidableEq, Repr

/-- `WorkingDirectoryRepository.find`: lookup by `dir_key`. -/
def findDir (db : List WorkingDirectory) (key : String) :
    Option WorkingDirectory :=
  db.find? (fun r => r.dirKey == key)

/-- `WorkingDirectoryRepository.findForMessage`: a thread-specific entry
(`` `${channelId}-${threadTs}` ``) overrides the channel default. The JS
truthiness test on `threadTs` is the `Option` match (Slack thread ids are
nonempty timestamps). -/
def findForMessage (db : List WorkingDirectory) (channelId : String)
    (threadTs : Option String) : Option WorkingDirectory :=
  match threadTs with
  | some t =>
    match findDir db (channelId ++ "-" ++ t) with
    | some threadDir => some threadDir
    | none => findDir db channelId
  | none => findDir db channelId

/-! ## Formatter (src/slack/formatter.ts) -/

/-- `truncate`: keep the first `maxLength` characters, appending `...`
when something was cut. -/
def truncate (str : String) (maxLength : Nat) : String :=
  if str.length ≤ maxLength then str
  else String.mk (str.data.take maxLength) ++ "..."

/-- Field access on the `input` object of a tool call; tool inputs are
modelled as string-valued records, which covers every field the formatter
reads (`file_path`, `command`, `pattern`). -/
def lookupField (input : List (String × String)) (k : String) :
    Option String :=
  (input.find? (fun p => p.1 == k)).map Prod.snd

/-- JS template-literal rendering of a possibly missing field:
`undefined` interpolates as the string `undefined`. -/
def jsInterp (v : Option String) : String :=
  v.getD "undefined"

/-- `formatToolDescription`: one-line description of a tool call. -/
def formatToolDescription (tool : String) (input : List (String × String)) :
    String :=
  if tool == "Read" then
    "👁️ `" ++ jsInterp (lookupField input "file_path") ++ "`"
  else if tool == "Edit" || tool == "MultiEdit" then
    "📝 `" ++ jsInterp (lookupField input "file_path") ++ "`"
  else if tool == "Write" then
    "📄 `" ++ jsInterp (lookupField input "file_path") ++ "`"
  else if tool == "Bash" then
    "🖥️ `" ++ truncate ((lookupField input "command").getD "") 80 ++ "`"
  else if tool == "Glob" then
    "🔍 `" ++ jsInterp (lookupField input "pattern") ++ "`"
  else if tool == "Grep" then
    "🔎 `" ++ jsInterp (lookupField input "pattern") ++ "`"
  else if tool == "TodoWrite" then
    "📋 Updating task list"
  else
    "🔧 " ++ tool

/-- Non-greedy search for the closing `**` of a bold span
(`/\*\*(.+?)\*\*/`): the content takes at least one character, `.` never
matches a newline, and the first following `**` closes the span. -/
def boldClose : List Char → Option (List Char × List Char)
  | [] => none
  | c :: rest =>
    if c = '\n' then none
    else
      match rest with
      | '*' :: '*' :: rest2 => some ([c], rest2)
      | _ => (boldClose rest).map (fun p => (c :: p.1, p.2))

theorem boldClose_length {l content after : List Char}
    (h : boldClose l = some (content, after)) : after.length < l.length := by
  induction l generalizing content after with
  | nil => simp [boldClose] at h
  | cons c rest ih =>
    simp only [boldClose] at h
    split at h
    · exact absurd h (by simp)
    · split at h
      · injection h with h1
        injection h1 with h2 h3
        subst h3
        simp [List.length_cons]
        omega
      · rw [Option.map_eq_some'] at h
        obtain ⟨p, hp, heq⟩ := h
        injection heq with h1 h2
        subst h2
        have := ih hp
        simp [List.length_cons]
        omega

/-- `/\*\*(.+?)\*\*/g` over the whole text: replace each bold span
`**content**` with `*content*`; where no span opens, move one character
forward (the regex engine advances its scan position by one). -/
def boldPass : List Char → List Char
  | [] => []
  | '*' :: '*' :: rest =>
    match h : boldClose rest with
    | some (content, after) => '*' :: content ++ '*' :: boldPass after
    | none => '*' :: boldPass ('*' :: rest)
  | c :: rest => c :: boldPass rest
termination_by l => l.length
decreasing_by
  · have := boldClose_length h
    simp only [List.length_cons]
    omega
  · simp only [List.length_cons]
    omega
  · simp only [List.length_cons]
    omega

/-- Strip a maximal run of leading `#`, returning its length and the rest. -/
def splitHashes : List Char → Nat × List Char
  | '#' :: rest =>
    let p := splitHashes rest
    (p.1 + 1, p.2)
  | l => (0, l)

/-- `/^#{1,3} (.+)$/gm`: a line of one to three `#`, a space and a
nonempty remainder becomes `*remainder*`; anything else is unchanged. -/
def headingLine (line : List Char) : List Char :=
  let p := splitHashes line
  match p.2 with
  | ' ' :: rest =>
    if 1 ≤ p.1 ∧ p.1 ≤ 3 ∧ rest ≠ [] then '*' :: rest ++ ['*'] else line
  | _ => line

/-- `/^[-*] /gm`: a leading `- ` or `* ` becomes a bullet `• `. -/
def bulletLine (line : List Char) : List Char :=
  match line with
  | '-' :: ' ' :: rest => '•' :: ' ' :: rest
  | '*' :: ' ' :: rest => '•' :: ' ' :: rest
  | line => line

/-- Apply a per-line rewrite to every `\n`-separated line. -/
def mapLines (f : List Char → List Char) (s : List Char) : List Char :=
  (['\n'] : List Char).intercalate ((s.splitOn '\n').map f)

/-- JavaScript's `\w`: ASCII letters, digits and underscore. -/
def isWordChar (c : Char) : Bool :=
  ('a' ≤ c && c ≤ 'z') || ('A' ≤ c && c ≤ 'Z') || ('0' ≤ c && c ≤ '9') || c == '_'

/-- Non-greedy search for the closing ```` ``` ```` of a code block
(`[\s\S]+?`): at least one character of content, newlines allowed, first
following triple backtick closes. -/
def codeClose : List Char → Option (List Char × List Char)
  | [] => none
  | c :: rest =>
    match rest with
    | '`' :: '`' :: '`' :: rest2 => some ([c], rest2)
    | _ => (codeClose rest).map (fun p => (c :: p.1, p.2))

theorem codeClose_length {l content after : List Char}
    (h : codeClose l = some (content, after)) : after.length < l.length := by
  induction l generalizing content after with
  | nil => simp [codeClose] at h
  | cons c rest ih =>
    simp only [codeClose] at h
    split at h
    · injection h with h1
      injection h1 with h2 h3
      subst h3
      simp [List.length_cons]
      omega
    · rw [Option.map_eq_some'] at h
      obtain ⟨p, hp, heq⟩ := h
      injection heq with h1 h2
      subst h2
      have := ih hp
      simp [List.length_cons]
      omega

theorem dropWhile_length_le (p : Char → Bool) (l : List Char) :
    (l.dropWhile p).length ≤ l.length := by
  induction l with
  | nil => simp
  | cons c rest ih =>
    rw [List.dropWhile]
    split
    · exact Nat.le_trans ih (Nat.le_succ _)
    · simp

/-- ``/```(\w+)?\n([\s\S]+?)```/g``: a fenced code block keeps its fences
but drops the language tag and the newline after it; an unclosed or
malformed opener advances the scan by one character. -/
def codePass : List Char → List Char
  | [] => []
  | '`' :: '`' :: '`' :: rest =>
    match heq : rest.dropWhile isWordChar with
    | '\n' :: body =>
      match h : codeClose body with
      | some (content, after) =>
        '`' :: '`' :: '`' :: (content ++ '`' :: '`' :: '`' :: codePass after)
      | none => '`' :: codePass ('`' :: '`' :: rest)
    | _ => '`' :: codePass ('`' :: '`' :: rest)
  | c :: rest => c :: codePass rest
termination_by l => l.length
decreasing_by
  · have h1 := codeClose_length h
    have h2 : body.length ≤ rest.length := by
      have hlt : body.length < (rest.dropWhile isWordChar).length := by
        rw [heq]; simp [List.length_cons]
      exact Nat.le_of_lt (Nat.lt_of_lt_of_le hlt (dropWhile_length_le isWordChar rest))
    simp only [List.length_cons]
    omega
  · simp only [List.length_cons]
    omega
  · simp only [List.length_cons]
    omega
  · simp only [List.length_cons]
    omega

/-- `toSlackMarkdown`: the four `replace` passes of the source, in order —
bold, headings, unordered lists, code fences. -/
def toSlackMarkdown (text : String) : String :=
  String.mk
    (codePass (mapLines bulletLine (mapLines headingLine (boldPass text.data))))

/-! ## Claude messages and the turn loop (src/slack/message-processor.ts)

`process` is deterministic given the incoming event, the two database
states, the message sequence the Claude stream yields and the `ts` Slack
assigns to the posted status message; it is embedded as a pure function to
the ordered list of Slack calls it makes, the resulting session table and
the turn's outcome. The abort signal is never set inside `process` (no
caller in the source aborts it), and the stream is finite, so the
`for await` loop is a fold over the message list. Cost amounts
(`total_cost_usd`, `maxBudgetUsd`) are floating-point in the source and
are modelled in exact units of 1e-4 USD (the resolution `toFixed(4)`
prints); no claim depends on float rounding. -/

/-- One element of an assistant message's `content` array. -/
inductive ContentPart where
  | text (text : String) : ContentPart
  | toolUse (id name : String) (input : List (String × String)) : ContentPart
  deriving DecidableEq, Repr

/-- `ClaudeMessage` (src/utils/types.ts): the three variants `process`
distinguishes. Of the result fields only `total_cost_usd` is read. -/
inductive ClaudeMessage where
  | systemInit (sessionId : String) : ClaudeMessage
  | assistant (content : List ContentPart) : ClaudeMessage
  | result (subtype : String) (totalCostUsd : Nat) : ClaudeMessage
  deriving DecidableEq, Repr

/-- `IncomingMessage` (src/utils/types.ts); `files` is never read by
`process` and is omitted. -/
structure IncomingMessage where
  userId : String
  channelId : String
  ts : String
  threadTs : Option String
  text : Option String
  deriving DecidableEq, Repr

/-- The options object `process` hands to `claudeQuery` (minus the
`canUseTool` closure, which is the permission gate modelled above). -/
structure QueryRequest where
  prompt : String
  outputFormat : Option String
  permissionMode : Option String
  cwd : Option String
  resume : Option String
  maxBudgetUsd : Nat
  maxTurns : Nat
  deriving DecidableEq, Repr

/-- One Slack-side call made by `process`, in the order issued; `query`
records the single invocation of the Agent Stream Source. -/
inductive Effect where
  | say (text : String) (threadTs : String) : Effect
  | updateMessage (channel ts text : String) : Effect
  | addReaction (channel ts name : String) : Effect
  | removeReaction (channel ts name : String) : Effect
  | query (req : QueryRequest) : Effect
  deriving DecidableEq, Repr

/-- `` `0.0123` ``-style rendering of a cost given in 1e-4 USD units,
matching `toFixed(4)` on the exact value. -/
def costToFixed4 (n : Nat) : String :=
  let frac := toString (n % 10000)
  toString (n / 10000) ++ "." ++
    String.mk (List.replicate (4 - frac.length) '0') ++ frac

/-- The status text for a `tool_use` part:
`` `⚙️ *Working...* ${formatToolDescription(part.name, part.input)}` ``. -/
def workingText (name : String) (input : List (String × String)) : String :=
  "⚙️ *Working...* " ++ formatToolDescription name input

/-- The final status text: `` `✅ *Completed*${cost}` `` where the cost
suffix appears when `total_cost_usd` is truthy (non-zero). -/
def completedText (totalCostUsd : Nat) : String :=
  "✅ *Completed*" ++
    (if totalCostUsd ≠ 0 then
      " _(" ++ costToFixed4 totalCostUsd ++ " USD)_"
    else "")

/-- The notice posted when a channel has no working directory. -/
def noWorkingDirNotice : String :=
  "⚠️ No working directory set. Use `cwd /path/to/project` to set one."

/-- The Slack calls made for one part of an assistant message: non-blank
text is forwarded as a new message (after markdown conversion), a tool use
updates the status message. -/
def partEffects (channelId statusTs replyThreadTs : String) :
    ContentPart → List Effect
  | .text t =>
    if t.trim ≠ "" then [.say (toSlackMarkdown t) replyThreadTs] else []
  | .toolUse _ name input =>
    [.updateMessage channelId statusTs (workingText name input)]

/-- The body of the `for await` loop for one stream message: a
`system/init` records the upstream session id (no Slack call), an
assistant message forwards its parts in order, a result updates the
status to completed. -/
def messageStep (key channelId statusTs replyThreadTs : String) (now : Nat)
    (db : List Session) : ClaudeMessage → List Effect × List Session
  | .systemInit sid => ([], updateClaudeSessionId db key sid now)
  | .assistant parts =>
    ((parts.map (partEffects channelId statusTs replyThreadTs)).flatten, db)
  | .result _ cost =>
    ([.updateMessage channelId statusTs (completedText cost)], db)

/-- The `for await` loop: messages are consumed one at a time, in order,
each one's Slack calls issued before the next message is pulled. -/
def streamLoop (key channelId statusTs replyThreadTs : String) (now : Nat)
    (db : List Session) : List ClaudeMessage → List Effect × List Session
  | [] => ([], db)
  | m :: rest =>
    let step := messageStep key channelId statusTs replyThreadTs now db m
    let tail := streamLoop key channelId statusTs replyThreadTs now step.2 rest
    (step.1 ++ tail.1, tail.2)

/-- A turn's terminal state: `blocked` is the guard's early return,
`completed` the normal end of the loop. -/
inductive Outcome where
  | blocked : Outcome
  | completed : Outcome
  deriving DecidableEq, Repr

/-- What `process` produced: its ordered Slack/stream calls, the session
table it left behind, and the terminal state. -/
structure ProcessResult where
  trace : List Effect
  sessionDb : List Session
  outcome : Outcome
  deriving DecidableEq, Repr

/-- The collaborators and configuration of `MessageProcessor`
(`MessageProcessorDeps`), with the two repositories replaced by their
table states. -/
structure ProcessDeps where
  sessionDb : List Session
  workingDirDb : List WorkingDirectory
  maxBudgetUsd : Option Nat
  maxTurns : Option Nat
  deriving DecidableEq, Repr

/-- The begin/resume step `process` performs before streaming: find the
existing row for the key, then upsert, passing the found upstream token
(`existing?.claudeSessionId ?? null`) back in. -/
def beginOrResume (db : List Session) (key userId channelId : String)
    (threadTs workingDirectory : Option String) (now : Nat) : List Session :=
  upsertSession db
    ⟨key, (findSession db key).bind (fun s => s.claudeSessionId), userId,
      channelId, threadTs, workingDirectory, true, now⟩ now

/-- The guard of `process`, lines 36-47: DMs need no working directory
(`workingDirectory` stays `undefined`); a channel without one is the
`Blocked` early return. `some wd` means the turn may start with working
directory `wd`. -/
def resolveDir (wdDb : List WorkingDirectory) (event : IncomingMessage) :
    Option (Option String) :=
  if isDM event.channelId then some none
  else
    match findForMessage wdDb event.channelId event.threadTs with
    | none => none
    | some d => some (some d.directory)

/-- `MessageProcessor.process`. Guard: a non-DM channel with no working
directory posts one notice and returns (Blocked). Otherwise: post the
thinking status (Slack answers with `statusTs`), add the reaction, upsert
the session row, invoke `claudeQuery` (recorded as the `query` effect,
carrying `resume = existing?.claudeSessionId ?? undefined`), relay the
stream, then swap the reactions. -/
def process (deps : ProcessDeps) (event : IncomingMessage)
    (stream : List ClaudeMessage) (statusTs : String) (now : Nat) :
    ProcessResult :=
  let replyThreadTs := event.threadTs.getD event.ts
  match resolveDir deps.workingDirDb event with
  | none =>
    ⟨[.say noWorkingDirNotice replyThreadTs], deps.sessionDb, .blocked⟩
  | some workingDirectory =>
    let key := sessionKey event.userId event.channelId event.threadTs
    let existing := findSession deps.sessionDb key
    let db1 := beginOrResume deps.sessionDb key event.userId event.channelId
      event.threadTs workingDirectory now
    let req : QueryRequest :=
      ⟨event.text.getD "", some "stream-json", some "default",
        workingDirectory, existing.bind (fun s => s.claudeSessionId),
        deps.maxBudgetUsd.getD 10000, deps.maxTurns.getD 50⟩
    let looped := streamLoop key event.channelId statusTs replyThreadTs now
      db1 stream
    ⟨[.say "🤔 *Thinking...*" replyThreadTs,
      .addReaction event.channelId event.ts "thinking_face",
      .query req] ++ looped.1 ++
      [.removeReaction event.channelId event.ts "thinking_face",
       .addReaction event.channelId event.ts "white_check_mark"],
      looped.2, .completed⟩

/-- Scenario C of the specification: the stream emits
`tool-invocation("Bash", {command: "ls /tmp"})` and then its terminal
event. -/
def scenarioCStream : List ClaudeMessage :=
  [ClaudeMessage.assistant
      [ContentPart.toolUse "tu1" "Bash" [("command", "ls /tmp")]],
   ClaudeMessage.result "success" 0]

/-- Scenario C run against a channel whose working directory is
configured. -/
def scenarioCRun : ProcessResult :=
  process ⟨[], [⟨"C3", "C3", none, none, "/tmp/proj", 0⟩], none, none⟩
    ⟨"U3", "C3", "1.0", none, some "run ls"⟩ scenarioCStream "100.1" 0

end SlackBot

namespace SlackBot

/-! ## Theorems: permission gate -/

/-- Once any settlement ran, `pending` stays false and the decision is
frozen at the value of the first settlement. -/
theorem runApproval_cons (e : ApprovalEvent) (rest : List ApprovalEvent) :
    runApproval (e :: rest) = ⟨false, some (settleValue e)⟩ := by
  have hstep : (stepApproval ⟨true, none⟩ e).1 = ⟨false, some (settleValue e)⟩ := by
    cases e <;> simp [stepApproval, settleValue]
  have frozen : ∀ (l : List ApprovalEvent) (d : Option Bool),
      l.foldl (fun s e => (stepApproval s e).1) ⟨false, d⟩ = ⟨false, d⟩ := by
    intro l
    induction l with
    | nil => intro d; rfl
    | cons x xs ih =>
      intro d
      have hx : (stepApproval ⟨false, d⟩ x).1 = ⟨false, d⟩ := by
        cases x <;> simp [stepApproval]
      simp [List.foldl_cons, hx, ih]
  simp [runApproval, List.foldl_cons, hstep, frozen]

/-- Cancelling a common prefix of two equal string concatenations. -/
theorem string_append_cancel_left (p s t : String) (h : p ++ s = p ++ t) :
    s = t := by
  have hd : p.data ++ s.data = p.data ++ t.data := by
    have := congrArg String.data h
    simpa [String.data_append] using this
  have h3 : s.data = t.data := List.append_cancel_left hd
  cases s; cases t; exact congrArg String.mk h3

/-- C1: for a NeedsApproval tool, `request` resolves Allow exactly when the
first settlement callback to run carries `true` (announce's inline `true`
or a `resolve(id, true)` that wins the race); in every other settled run it
resolves Deny with a message naming the tool. -/
theorem request_allow_iff_first_settlement_true
    (tool : String) (h : isSafe tool = false)
    (e : ApprovalEvent) (rest : List ApprovalEvent) :
    (requestOutcome tool (e :: rest) = some PermissionResult.allow ↔
      settleValue e = true) ∧
    (settleValue e = false →
      requestOutcome tool (e :: rest) =
        some (PermissionResult.deny (denyMessage tool)) ∧
      List.IsInfix tool.data (denyMessage tool).data) := by
  have hd : (runApproval (e :: rest)).decision = some (settleValue e) := by
    rw [runApproval_cons]
  constructor
  · cases hv : settleValue e <;> simp [requestOutcome, h, hd, hv]
  · intro hv
    refine ⟨by simp [requestOutcome, h, hd, hv], ?_⟩
    exact ⟨"Tool \"".data, "\" was denied by user.".data,
      by simp [denyMessage, String.data_append]⟩

/-- C1 witness: `Write` is not safe; a run whose first settlement is an
out-of-band `resolve(id, true)` yields Allow, and a run settled first by a
`false` yields the Deny message naming `Write`. -/
theorem request_allow_iff_first_settlement_true_witness :
    isSafe "Write" = false ∧
    (requestOutcome "Write" [ApprovalEvent.externalResolve true] =
        some PermissionResult.allow ↔
      settleValue (ApprovalEvent.externalResolve true) = true) :=
  ⟨by decide,
    (request_allow_iff_first_settlement_true "Write" (by decide)
      (ApprovalEvent.externalResolve true) []).1⟩

/-- C2: settling a pending approval removes it from the pending table, so a
second `resolve` on the same id throws the no-pending-approval error, and
the settlement touched no other pending entry and dropped no recorded
decision. The inline `announce` settlement runs through the same `resolve`
(after its `pending.has` check), so both settlement paths are covered. -/
theorem resolve_after_settlement_errors
    (g : GateMap) (id : String) (b b' : Bool)
    (hmem : id ∈ g.pending) (hnodup : g.pending.Nodup) :
    ∃ g1 : GateMap,
      resolveCall g id b = Except.ok g1 ∧
      id ∉ g1.pending ∧
      resolveCall g1 id b' = Except.error (brokenMessage id) ∧
      (∀ id2, id2 ≠ id → (id2 ∈ g1.pending ↔ id2 ∈ g.pending)) ∧
      g1.settled = (id, b) :: g.settled := by
  refine ⟨⟨g.pending.erase id, (id, b) :: g.settled⟩, ?_, ?_, ?_, ?_, rfl⟩
  · simp [resolveCall, hmem]
  · exact hnodup.not_mem_erase
  · simp [resolveCall, hnodup.not_mem_erase]
  · intro id2 hne
    simpa using List.mem_erase_of_ne hne

/-- C2 witness: with ids `a` and `b` pending, settling `a` then resolving
`a` again errors while `b` stays pending. -/
theorem resolve_after_settlement_errors_witness :
    ∃ g1 : GateMap,
      resolveCall ⟨["a", "b"], []⟩ "a" true = Except.ok g1 ∧
      "a" ∉ g1.pending ∧
      resolveCall g1 "a" false = Except.error (brokenMessage "a") ∧
      (∀ id2, id2 ≠ "a" →
        (id2 ∈ g1.pending ↔ id2 ∈ (["a", "b"] : List String))) ∧
      g1.settled = [("a", true)] :=
  resolve_after_settlement_errors ⟨["a", "b"], []⟩ "a" true false
    (by decide) (by decide)

/-- C3: when the `announce` promise rejects before anything else settled,
the `.catch` handler settles the approval with `false`, so `request`
resolves Deny naming the tool; the decision is frozen there no matter what
later callbacks run, and any later `resolve` attempt raises. -/
theorem announce_throw_denies
    (tool : String) (h : isSafe tool = false) (rest : List ApprovalEvent) :
    requestOutcome tool (ApprovalEvent.announceThrow :: rest) =
      some (PermissionResult.deny (denyMessage tool)) ∧
    runApproval (ApprovalEvent.announceThrow :: rest) = ⟨false, some false⟩ ∧
    ∀ b, (stepApproval (runApproval (ApprovalEvent.announceThrow :: rest))
      (ApprovalEvent.externalResolve b)).2 = true := by
  have hr : runApproval (ApprovalEvent.announceThrow :: rest) =
      ⟨false, some false⟩ := runApproval_cons ApprovalEvent.announceThrow rest
  refine ⟨?_, hr, ?_⟩
  · simp [requestOutcome, h, hr]
  · intro b; simp [hr, stepApproval]

/-- C3 witness: `Edit` is unsafe; an announce rejection followed by a late
`resolve(id, true)` still yields Deny, and the late resolve raises. -/
theorem announce_throw_denies_witness :
    isSafe "Edit" = false ∧
    requestOutcome "Edit"
        [ApprovalEvent.announceThrow, ApprovalEvent.externalResolve true] =
      some (PermissionResult.deny (denyMessage "Edit")) :=
  ⟨by decide,
    (announce_throw_denies "Edit" (by decide)
      [ApprovalEvent.externalResolve true]).1⟩

/-- C4: `isSafe` returns true exactly for the fixed safe set and for names
with the `mcp__` prefix; every other name needs approval. -/
theorem isSafe_iff (tool : String) :
    isSafe tool = true ↔
      (tool ∈ SAFE_TOOLS ∨ strStartsWith tool "mcp__" = true) := by
  by_cases hp : strStartsWith tool "mcp__" = true
  · simp [isSafe, SAFE_TOOLS, hp]
  · simp only [Bool.not_eq_true] at hp
    simp [isSafe, SAFE_TOOLS, hp]

/-- C5: `sessionKey` is a pure function — equal inputs give the equal key —
and the no-thread (direct) key never coincides with the key of the same
actor and channel under a real thread id (Slack thread ids are timestamps,
never the sentinel `direct`; claim C10 records the sentinel collision). -/
theorem sessionKey_deterministic_and_direct_separate
    (u c t : String) (ht : t ≠ "direct") :
    (∀ u' c' t', u' = u → c' = c → t' = some t →
      sessionKey u' c' t' = sessionKey u c (some t)) ∧
    sessionKey u c none ≠ sessionKey u c (some t) := by
  refine ⟨by intro u' c' t' hu hc htt; rw [hu, hc, htt], ?_⟩
  intro heq
  apply ht
  have h2 : ((u ++ "-" ++ c ++ "-") ++ "direct" : String) =
      (u ++ "-" ++ c ++ "-") ++ t := by
    simpa [sessionKey, String.append_assoc] using heq
  have := string_append_cancel_left (u ++ "-" ++ c ++ "-") "direct" t h2
  exact this.symm

/-- C5 witness: concrete actor/channel with thread id `1700000000.000100`. -/
theorem sessionKey_deterministic_and_direct_separate_witness :
    ("1700000000.000100" : String) ≠ "direct" ∧
    sessionKey "U1" "C1" none ≠ sessionKey "U1" "C1" (some "1700000000.000100") :=
  ⟨by decide,
    (sessionKey_deterministic_and_direct_separate "U1" "C1"
      "1700000000.000100" (by decide)).2⟩

/-- C10: key derivation is not injective — `-`-joining lets components
bleed into each other, and the `direct` sentinel collides with an explicit
thread id `direct`. -/
theorem sessionKey_not_injective :
    (("a" : String), ("b-c" : String), (none : Option String)) ≠
      ("a-b", "c", none) ∧
    sessionKey "a" "b-c" none = sessionKey "a-b" "c" none ∧
    ((some "direct" : Option String) ≠ none ∧
      sessionKey "a" "b" (some "direct") = sessionKey "a" "b" none) := by
  refine ⟨?_, ?_, ?_⟩ <;> decide

/-! ## Theorems: continuity and the turn loop -/

/-- `upsert` on a key that is present rewrites exactly the four
`DO UPDATE` columns of the stored row. -/
theorem findSession_upsert_existing (db : List Session) (s : SessionUpsert)
    (now : Nat) (r : Session)
    (hfind : findSession db s.sessionKey = some r) :
    findSession (upsertSession db s now) s.sessionKey =
      some { r with claudeSessionId := s.claudeSessionId,
                    workingDirectory := s.workingDirectory,
                    isActive := s.isActive,
                    lastActivityAt := s.lastActivityAt } := by
  unfold findSession at hfind
  have hmem := List.mem_of_find?_eq_some hfind
  have hpr : (r.sessionKey == s.sessionKey) = true := by
    have h0 := List.find?_some hfind
    simpa using h0
  have hany : db.any (fun x => x.sessionKey == s.sessionKey) = true :=
    List.any_eq_true.mpr ⟨r, hmem, hpr⟩
  unfold upsertSession findSession
  rw [if_pos hany]
  rw [List.find?_map]
  have hcomp : ((fun x : Session => x.sessionKey == s.sessionKey) ∘
      (fun x : Session =>
        if x.sessionKey == s.sessionKey then
          { x with claudeSessionId := s.claudeSessionId,
                   workingDirectory := s.workingDirectory,
                   isActive := s.isActive,
                   lastActivityAt := s.lastActivityAt }
        else x)) =
      (fun x : Session => x.sessionKey == s.sessionKey) := by
    funext x
    by_cases hx : x.sessionKey = s.sessionKey
    · simp [hx]
    · simp [hx]
  rw [hcomp, hfind]
  have hr : r.sessionKey = s.sessionKey := by simpa using hpr
  simp [hr]

/-- C6: when the stored row for a key carries an upstream token, the
begin-or-resume step of a new turn (find, then upsert passing the found
token) leaves that token stored rather than nulling it. -/
theorem beginOrResume_preserves_token
    (db : List Session) (key u c : String) (t wdir : Option String)
    (now : Nat) (r : Session) (tok : String)
    (hfind : findSession db key = some r)
    (htok : r.claudeSessionId = some tok) :
    ∃ r2, findSession (beginOrResume db key u c t wdir now) key = some r2 ∧
      r2.claudeSessionId = some tok := by
  refine ⟨_, findSession_upsert_existing db
    ⟨key, (findSession db key).bind (fun s => s.claudeSessionId), u, c, t,
      wdir, true, now⟩ now r hfind, ?_⟩
  simp [hfind, htok]

/-- C6 witness: a row holding token `T1` keeps it across the step. -/
theorem beginOrResume_preserves_token_witness :
    ∃ r2, findSession
        (beginOrResume [⟨"k1", some "T1", "U1", "C1", none, none, false, 5, 1⟩]
          "k1" "U1" "C1" none (some "/p") 9) "k1" = some r2 ∧
      r2.claudeSessionId = some "T1" :=
  beginOrResume_preserves_token
    [⟨"k1", some "T1", "U1", "C1", none, none, false, 5, 1⟩]
    "k1" "U1" "C1" none (some "/p") 9
    ⟨"k1", some "T1", "U1", "C1", none, none, false, 5, 1⟩ "T1"
    (by decide) rfl

/-- C7: a non-DM message with no working directory configured yields the
Blocked outcome: the trace is exactly one notice naming the missing
working directory, the Agent Stream Source is never invoked, and the
session table is untouched. -/
theorem process_blocked_without_working_dir
    (deps : ProcessDeps) (event : IncomingMessage)
    (stream : List ClaudeMessage) (statusTs : String) (now : Nat)
    (hCh : isDM event.channelId = false)
    (hNo : findForMessage deps.workingDirDb event.channelId event.threadTs
      = none) :
    process deps event stream statusTs now =
      ⟨[Effect.say noWorkingDirNotice (event.threadTs.getD event.ts)],
        deps.sessionDb, Outcome.blocked⟩ ∧
    List.IsInfix "working directory".data noWorkingDirNotice.data ∧
    ∀ req, Effect.query req ∉ (process deps event stream statusTs now).trace := by
  have hres : resolveDir deps.workingDirDb event = none := by
    simp [resolveDir, hCh, hNo]
  have hp : process deps event stream statusTs now =
      ⟨[Effect.say noWorkingDirNotice (event.threadTs.getD event.ts)],
        deps.sessionDb, Outcome.blocked⟩ := by
    unfold process
    rw [hres]
  refine ⟨hp, ⟨"⚠️ No ".data,
    " set. Use `cwd /path/to/project` to set one.".data, by decide⟩, ?_⟩
  intro req hmem
  rw [hp] at hmem
  simp at hmem

/-- C7 witness: actor `U2` on channel `C2` with an empty working-directory
table. -/
theorem process_blocked_without_working_dir_witness :
    process ⟨[], [], none, none⟩ ⟨"U2", "C2", "1.0", none, some "hello"⟩
        [] "9.9" 0 =
      ⟨[Effect.say noWorkingDirNotice "1.0"], [], Outcome.blocked⟩ :=
  (process_blocked_without_working_dir ⟨[], [], none, none⟩
    ⟨"U2", "C2", "1.0", none, some "hello"⟩ [] "9.9" 0
    (by decide) (by decide)).1

/-- When the guard passes, `process` is the begin/resume step, one
`claudeQuery` invocation and the relayed stream, bracketed by the status
and reaction calls. -/
theorem process_eq_of_resolved (deps : ProcessDeps) (event : IncomingMessage)
    (stream : List ClaudeMessage) (statusTs : String) (now : Nat)
    (wd : Option String)
    (hwd : resolveDir deps.workingDirDb event = some wd) :
    process deps event stream statusTs now =
      ⟨[Effect.say "🤔 *Thinking...*" (event.threadTs.getD event.ts),
        Effect.addReaction event.channelId event.ts "thinking_face",
        Effect.query ⟨event.text.getD "", some "stream-json", some "default",
          wd,
          (findSession deps.sessionDb
            (sessionKey event.userId event.channelId event.threadTs)).bind
              (fun s => s.claudeSessionId),
          deps.maxBudgetUsd.getD 10000, deps.maxTurns.getD 50⟩] ++
        (streamLoop (sessionKey event.userId event.channelId event.threadTs)
          event.channelId statusTs (event.threadTs.getD event.ts) now
          (beginOrResume deps.sessionDb
            (sessionKey event.userId event.channelId event.threadTs)
            event.userId event.channelId event.threadTs wd now) stream).1 ++
        [Effect.removeReaction event.channelId event.ts "thinking_face",
         Effect.addReaction event.channelId event.ts "white_check_mark"],
        (streamLoop (sessionKey event.userId event.channelId event.threadTs)
          event.channelId statusTs (event.threadTs.getD event.ts) now
          (beginOrResume deps.sessionDb
            (sessionKey event.userId event.channelId event.threadTs)
            event.userId event.channelId event.threadTs wd now) stream).2,
        Outcome.completed⟩ := by
  unfold process
  rw [hwd]

/-- C8: if after a first turn the stored row for the conversation key
holds upstream token `tok`, a second turn for the same actor, channel and
thread invokes the Agent Stream Source with `resume = tok`. -/
theorem second_turn_resumes_stored_token
    (deps1 : ProcessDeps) (wdDb2 : List WorkingDirectory)
    (mb mt : Option Nat) (e1 e2 : IncomingMessage)
    (stream1 stream2 : List ClaudeMessage) (ts1 ts2 : String) (n1 n2 : Nat)
    (tok : String) (wd : Option String)
    (hu : e2.userId = e1.userId) (hc : e2.channelId = e1.channelId)
    (ht : e2.threadTs = e1.threadTs)
    (hstored : (findSession (process deps1 e1 stream1 ts1 n1).sessionDb
        (sessionKey e1.userId e1.channelId e1.threadTs)).bind
        (fun s => s.claudeSessionId) = some tok)
    (hwd : resolveDir wdDb2 e2 = some wd) :
    ∃ req, Effect.query req ∈
        (process ⟨(process deps1 e1 stream1 ts1 n1).sessionDb, wdDb2, mb, mt⟩
          e2 stream2 ts2 n2).trace ∧
      req.resume = some tok := by
  rw [process_eq_of_resolved ⟨(process deps1 e1 stream1 ts1 n1).sessionDb,
    wdDb2, mb, mt⟩ e2 stream2 ts2 n2 wd hwd]
  refine ⟨⟨e2.text.getD "", some "stream-json", some "default", wd,
    (findSession (process deps1 e1 stream1 ts1 n1).sessionDb
      (sessionKey e2.userId e2.channelId e2.threadTs)).bind
        (fun s => s.claudeSessionId),
    mb.getD 10000, mt.getD 50⟩, ?_, ?_⟩
  · simp
  · show (findSession (process deps1 e1 stream1 ts1 n1).sessionDb
        (sessionKey e2.userId e2.channelId e2.threadTs)).bind
        (fun s => s.claudeSessionId) = some tok
    rw [hu, hc, ht]
    exact hstored

/-- The loop relays a concatenated stream as the concatenation of the two
relays, threading the session table through. -/
theorem streamLoop_append (key channelId statusTs replyThreadTs : String)
    (now : Nat) (db : List Session) (l1 l2 : List ClaudeMessage) :
    streamLoop key channelId statusTs replyThreadTs now db (l1 ++ l2) =
      ((streamLoop key channelId statusTs replyThreadTs now db l1).1 ++
        (streamLoop key channelId statusTs replyThreadTs now
          (streamLoop key channelId statusTs replyThreadTs now db l1).2 l2).1,
       (streamLoop key channelId statusTs replyThreadTs now
          (streamLoop key channelId statusTs replyThreadTs now db l1).2 l2).2) := by
  induction l1 generalizing db with
  | nil => simp [streamLoop]
  | cons m rest ih =>
    simp only [List.cons_append, streamLoop, List.append_eq]
    rw [ih]
    simp [List.append_assoc]

/-- Unfolding one message of the loop. -/
theorem streamLoop_cons (key channelId statusTs replyThreadTs : String)
    (now : Nat) (db : List Session) (m : ClaudeMessage)
    (rest : List ClaudeMessage) :
    streamLoop key channelId statusTs replyThreadTs now db (m :: rest) =
      ((messageStep key channelId statusTs replyThreadTs now db m).1 ++
        (streamLoop key channelId statusTs replyThreadTs now
          (messageStep key channelId statusTs replyThreadTs now db m).2 rest).1,
       (streamLoop key channelId statusTs replyThreadTs now
          (messageStep key channelId statusTs replyThreadTs now db m).2 rest).2) := by
  simp [streamLoop]

/-- Inside the relayed stream, the tool-invocation status update of any
`tool_use` part precedes the completed update of a later result message:
the relay keeps emission order. -/
theorem streamLoop_tool_before_completed
    (key channelId statusTs replyThreadTs : String) (now : Nat)
    (db : List Session) (pre mid post : List ClaudeMessage)
    (parts : List ContentPart) (pid name : String)
    (input : List (String × String)) (subtype : String) (cost : Nat)
    (hpart : ContentPart.toolUse pid name input ∈ parts) :
    List.Sublist
      [Effect.updateMessage channelId statusTs (workingText name input),
       Effect.updateMessage channelId statusTs (completedText cost)]
      (streamLoop key channelId statusTs replyThreadTs now db
        (pre ++ ClaudeMessage.assistant parts ::
          (mid ++ ClaudeMessage.result subtype cost :: post))).1 := by
  have hu : List.Sublist
      [Effect.updateMessage channelId statusTs (workingText name input)]
      (parts.map (partEffects channelId statusTs replyThreadTs)).flatten := by
    rw [List.singleton_sublist, List.mem_flatten]
    refine ⟨[Effect.updateMessage channelId statusTs (workingText name input)],
      ?_, by simp⟩
    have hm := List.mem_map_of_mem
      (partEffects channelId statusTs replyThreadTs) hpart
    simpa [partEffects] using hm
  rw [streamLoop_append]
  refine List.Sublist.trans ?_ (List.sublist_append_right _ _)
  rw [streamLoop_cons]
  show List.Sublist
    ([Effect.updateMessage channelId statusTs (workingText name input)] ++
     [Effect.updateMessage channelId statusTs (completedText cost)]) _
  refine List.Sublist.append (by simpa [messageStep] using hu) ?_
  rw [streamLoop_append]
  refine List.Sublist.trans ?_ (List.sublist_append_right _ _)
  rw [streamLoop_cons]
  refine List.Sublist.trans ?_ (List.sublist_append_left _ _)
  simp [messageStep]

/-- C9 (amended): events are relayed in emission order — in every
non-blocked turn whose stream emits a `tool_use` part before its result
event, the status update describing the tool invocation is reported
before the completed status. (The update text is
`formatToolDescription`'s output, which names the tool only for tools
without a dedicated format; for `Bash` it shows the command.) -/
theorem tool_update_reported_before_completed
    (deps : ProcessDeps) (event : IncomingMessage) (statusTs : String)
    (now : Nat) (wd : Option String) (pre mid post : List ClaudeMessage)
    (parts : List ContentPart) (pid name : String)
    (input : List (String × String)) (subtype : String) (cost : Nat)
    (hwd : resolveDir deps.workingDirDb event = some wd)
    (hpart : ContentPart.toolUse pid name input ∈ parts) :
    List.Sublist
      [Effect.updateMessage event.channelId statusTs (workingText name input),
       Effect.updateMessage event.channelId statusTs (completedText cost)]
      (process deps event
        (pre ++ ClaudeMessage.assistant parts ::
          (mid ++ ClaudeMessage.result subtype cost :: post))
        statusTs now).trace := by
  rw [process_eq_of_resolved deps event _ statusTs now wd hwd]
  refine List.Sublist.trans ?_ (List.sublist_append_left _ _)
  refine List.Sublist.trans ?_ (List.sublist_append_right _ _)
  exact streamLoop_tool_before_completed _ _ _ _ _ _ pre mid post parts
    pid name input subtype cost hpart

/-- C9 witness for the amended claim: Scenario C's stream on a channel
with a configured working directory. -/
theorem tool_update_reported_before_completed_witness :
    List.Sublist
      [Effect.updateMessage "C3" "100.1" (workingText "Bash" [("command", "ls /tmp")]),
       Effect.updateMessage "C3" "100.1" (completedText 0)]
      (process ⟨[], [⟨"C3", "C3", none, none, "/tmp/proj", 0⟩], none, none⟩
        ⟨"U3", "C3", "1.0", none, some "run ls"⟩
        ([] ++ ClaudeMessage.assistant
            [ContentPart.toolUse "tu1" "Bash" [("command", "ls /tmp")]] ::
          ([] ++ ClaudeMessage.result "success" 0 :: []))
        "100.1" 0).trace :=
  tool_update_reported_before_completed
    ⟨[], [⟨"C3", "C3", none, none, "/tmp/proj", 0⟩], none, none⟩
    ⟨"U3", "C3", "1.0", none, some "run ls"⟩ "100.1" 0 (some "/tmp/proj")
    [] [] [] [ContentPart.toolUse "tu1" "Bash" [("command", "ls /tmp")]]
    "tu1" "Bash" [("command", "ls /tmp")] "success" 0
    (by decide) (by decide)

/-- C9 counterexample (Scenario C): the tool-invocation status update for
`Bash` shows the command (`🖥️ \x60ls /tmp\x60`), so no reported text of
the whole turn contains the tool name `Bash` — the claimed
"status update naming the tool" does not exist in this run, even though
the tool-invocation update does precede the completed status. -/
theorem scenarioC_no_update_names_tool :
    scenarioCRun.trace =
      [Effect.say "🤔 *Thinking...*" "1.0",
       Effect.addReaction "C3" "1.0" "thinking_face",
       Effect.query ⟨"run ls", some "stream-json", some "default",
         some "/tmp/proj", none, 10000, 50⟩,
       Effect.updateMessage "C3" "100.1" "⚙️ *Working...* 🖥️ `ls /tmp`",
       Effect.updateMessage "C3" "100.1" "✅ *Completed*",
       Effect.removeReaction "C3" "1.0" "thinking_face",
       Effect.addReaction "C3" "1.0" "white_check_mark"] ∧
    (¬ List.IsInfix "Bash".data "🤔 *Thinking...*".data ∧
     ¬ List.IsInfix "Bash".data "⚙️ *Working...* 🖥️ `ls /tmp`".data ∧
     ¬ List.IsInfix "Bash".data "✅ *Completed*".data) := by
  constructor
  · decide
  · refine ⟨?_, ?_, ?_⟩ <;> decide

/-- C8 witness (Scenario E): a DM first turn whose stream reports
`session-initialized("T1")`; the second turn's request resumes `T1`. -/
theorem second_turn_resumes_stored_token_witness :
    ∃ req, Effect.query req ∈
        (process ⟨(process ⟨[], [], none, none⟩ ⟨"U1", "D1", "1.0", none, some "hi"⟩
            [ClaudeMessage.systemInit "T1", ClaudeMessage.result "success" 0]
            "10.0" 0).sessionDb, [], none, none⟩
          ⟨"U1", "D1", "2.0", none, some "again"⟩ [] "20.0" 1).trace ∧
      req.resume = some "T1" :=
  second_turn_resumes_stored_token ⟨[], [], none, none⟩ [] none none
    ⟨"U1", "D1", "1.0", none, some "hi"⟩ ⟨"U1", "D1", "2.0", none, some "again"⟩
    [ClaudeMessage.systemInit "T1", ClaudeMessage.result "success" 0] []
    "10.0" "20.0" 0 1 "T1" none rfl rfl rfl (by decide) (by decide)

end SlackBot
